import Mathlib

/-!
# Verification of the pawalogs database utilities

A shallow embedding of `src/pawalogs/utils.py`,
`src/pawalogs/commands/db_schema_inspector.py` and
`src/pawalogs/commands/table_counts.py`, together with a model of the
relevant SQLite engine behaviour (catalog query, introspection pragmas,
`SELECT COUNT(*)`), and proofs of the specified properties.

Python strings are modelled as `String` (character lists), Python `dict`
as an association list with insertion-order semantics, SQLite row counts
as `Nat`, and the `--min-rows` argument (an arbitrary Python `int`) as
`Int`.  A raised `sqlite3.Error` is modelled as `Except.error` carrying
the message.
-/

namespace Pawalogs

/-! ## Identifier quoting (`utils.quote_identifier`) -/

/-- Character-level model of Python `identifier.replace('"', '""')`:
every double-quote character is doubled, all other characters are kept.
For a one-character pattern, Python's left-to-right non-overlapping
`str.replace` is exactly this character-by-character expansion. -/
def escapeQuotes : List Char → List Char
  | [] => []
  | c :: rest => if c = '"' then '"' :: '"' :: escapeQuotes rest else c :: escapeQuotes rest

/-- `utils.quote_identifier`: escape any embedded double quote by doubling
it and wrap the whole identifier in double quotes. -/
def quote_identifier (identifier : String) : String :=
  ⟨'"' :: escapeQuotes identifier.data ++ ['"']⟩

/-- Left-to-right non-overlapping replacement of `""` by `"` (the inverse
step named by the round-trip law: "replacing every doubled inner delimiter
with a single one", i.e. Python `s.replace('""', '"')`). -/
def undoubleQuotes : List Char → List Char
  | [] => []
  | [c] => [c]
  | c :: d :: rest =>
    if c = '"' ∧ d = '"' then '"' :: undoubleQuotes rest
    else c :: undoubleQuotes (d :: rest)

/-- The inverse operation described by the round-trip law: strip one outer
delimiter character from each end, then un-double every doubled inner
delimiter. -/
def unquote_identifier (s : String) : String :=
  ⟨undoubleQuotes (s.data.drop 1).dropLast⟩

theorem escapeQuotes_cons_quote (rest : List Char) :
    escapeQuotes ('"' :: rest) = '"' :: '"' :: escapeQuotes rest := by
  simp [escapeQuotes]

theorem escapeQuotes_cons_other (c : Char) (rest : List Char) (hc : c ≠ '"') :
    escapeQuotes (c :: rest) = c :: escapeQuotes rest := by
  simp [escapeQuotes, hc]

theorem undoubleQuotes_quote_cons (rest : List Char) :
    undoubleQuotes ('"' :: '"' :: rest) = '"' :: undoubleQuotes rest := by
  simp [undoubleQuotes]

theorem undoubleQuotes_other_cons (c : Char) (l : List Char) (hc : c ≠ '"') :
    undoubleQuotes (c :: l) = c :: undoubleQuotes l := by
  cases l with
  | nil => simp [undoubleQuotes]
  | cons d tail => simp [undoubleQuotes, hc]

theorem undoubleQuotes_escapeQuotes (l : List Char) :
    undoubleQuotes (escapeQuotes l) = l := by
  induction l with
  | nil => simp [escapeQuotes, undoubleQuotes]
  | cons c rest ih =>
    by_cases hc : c = '"'
    · subst hc
      rw [escapeQuotes_cons_quote, undoubleQuotes_quote_cons, ih]
    · rw [escapeQuotes_cons_other c _ hc, undoubleQuotes_other_cons c _ hc, ih]

theorem escapeQuotes_injective : Function.Injective escapeQuotes := by
  intro a b h
  have ha := undoubleQuotes_escapeQuotes a
  have hb := undoubleQuotes_escapeQuotes b
  rw [← ha, ← hb, h]

theorem quote_identifier_injective : Function.Injective quote_identifier := by
  intro a b h
  have h' : '"' :: escapeQuotes a.data ++ ['"'] = '"' :: escapeQuotes b.data ++ ['"'] :=
    congrArg String.data h
  have h2 : escapeQuotes a.data ++ ['"'] = escapeQuotes b.data ++ ['"'] :=
    List.cons_injective h'
  have h3 : escapeQuotes a.data = escapeQuotes b.data :=
    List.append_cancel_right h2
  have h4 : a.data = b.data := escapeQuotes_injective h3
  cases a; cases b; exact congrArg String.mk h4

/-- **C2.** For every string S, quoting with `quote_identifier` and then
inverting — stripping the one outer delimiter character from each end and
replacing every doubled inner delimiter with a single one — yields back S
exactly.  `quote_identifier` is total on all strings (it is defined as a
total function with no error case). -/
theorem quote_identifier_roundtrip (s : String) :
    unquote_identifier (quote_identifier s) = s := by
  cases s with
  | mk data =>
    simp only [quote_identifier, unquote_identifier]
    simp only [List.cons_append, List.drop_one, List.tail_cons]
    rw [List.dropLast_concat, undoubleQuotes_escapeQuotes]

/-! ## Model of the SQLite engine state

The engine is external to the repository; it is modelled from its
documented behaviour.  A database is a list of table declarations; each
declaration carries the raw rows the three introspection pragmas return
for it and its current row count.  `PRAGMA table_info` emits one row per
column with `cid` equal to the column's ordinal position in declaration
order, which the model computes with `List.enum`. -/

/-- One declared column, as stored in the catalog (the `cid` of the
pragma row is its position, so it is not stored here). -/
structure ColumnDecl where
  name : String
  type : String
  notnull : Nat
  dflt_value : Option String
  pk : Nat
  deriving DecidableEq

/-- One raw result row of `PRAGMA foreign_key_list`:
`(id, seq, table, from, to, on_update, on_delete, match)`. -/
structure FkRow where
  id : Nat
  seq : Nat
  table : String
  from_col : String
  to_col : String
  on_update : String
  on_delete : String
  match_policy : String
  deriving DecidableEq

/-- One raw result row of `PRAGMA index_list`:
`(seq, name, unique, origin, partial)`. -/
structure IdxRow where
  seq : Nat
  name : String
  uniq : Nat
  origin : String
  part : Nat
  deriving DecidableEq

/-- One user table in the database: its name, its columns in declaration
order, the raw foreign-key and index pragma rows, and its row count. -/
structure TableDecl where
  name : String
  columns : List ColumnDecl
  fkRows : List FkRow
  idxRows : List IdxRow
  row_count : Nat
  deriving DecidableEq

/-- A SQLite database state: the user tables, in catalog order. -/
structure Db where
  tables : List TableDecl
  deriving DecidableEq

/-- Resolution of a double-quoted identifier against the catalog: the
table whose quoted name equals the given quoted string, if any. -/
def resolveTable (db : Db) (quoted : String) : Option TableDecl :=
  db.tables.find? (fun t => quote_identifier t.name == quoted)

/-- One raw result row of `PRAGMA table_info`:
`(cid, name, type, notnull, dflt_value, pk)`. -/
structure TableInfoRow where
  cid : Nat
  name : String
  type : String
  notnull : Nat
  dflt_value : Option String
  pk : Nat
  deriving DecidableEq

/-- Engine model of `cursor.execute(f"PRAGMA table_info({quoted})")` +
`fetchall()`: one row per column in declaration order, `cid` being the
ordinal position; an unresolvable table yields no rows. -/
def pragma_table_info (db : Db) (quoted : String) : List TableInfoRow :=
  match resolveTable db quoted with
  | none => []
  | some t => t.columns.enum.map (fun p => ⟨p.1, p.2.name, p.2.type, p.2.notnull, p.2.dflt_value, p.2.pk⟩)

/-- Engine model of `PRAGMA foreign_key_list` + `fetchall()`: the stored
rows, or no rows for an unresolvable table. -/
def pragma_foreign_key_list (db : Db) (quoted : String) : List FkRow :=
  match resolveTable db quoted with
  | none => []
  | some t => t.fkRows

/-- Engine model of `PRAGMA index_list` + `fetchall()`: the stored rows,
or no rows for an unresolvable table. -/
def pragma_index_list (db : Db) (quoted : String) : List IdxRow :=
  match resolveTable db quoted with
  | none => []
  | some t => t.idxRows

/-- Engine model of `SELECT COUNT(*) FROM {quoted}` + `fetchone()[0]`:
the table's row count, or a raised `sqlite3.OperationalError` when the
quoted name resolves to no table. -/
def select_count_star (db : Db) (quoted : String) : Except String Nat :=
  match resolveTable db quoted with
  | none => Except.error ("no such table: " ++ quoted)
  | some t => Except.ok t.row_count

/-- Python `s.startswith(p)`. -/
def str_startswith (s p : String) : Bool :=
  List.isPrefixOf p.data s.data

/-! ## `utils.get_table_names` -/

/-- `utils.get_table_names`: the engine evaluates
`SELECT name FROM sqlite_master WHERE type='table' ORDER BY name`
(modelled as sorting the catalog's table names), then the Python list
comprehension keeps the names not starting with `"sqlite_"`. -/
def get_table_names (db : Db) : List String :=
  let tables := List.insertionSort (· ≤ ·) (db.tables.map (fun t => t.name))
  tables.filter (fun t => !(str_startswith t "sqlite_"))

/-! ## Record types of `utils` (the dataclasses) -/

/-- `utils.ColumnInfo`. -/
structure ColumnInfo where
  cid : Nat
  name : String
  type : String
  not_null : Bool
  default_value : Option String
  primary_key : Bool
  deriving DecidableEq

/-- `utils.ForeignKeyInfo` (the Python field `match` is a Lean keyword,
rendered here as `match_policy`). -/
structure ForeignKeyInfo where
  id : Nat
  seq : Nat
  table : String
  from_column : String
  to_column : String
  on_update : String
  on_delete : String
  match_policy : String
  deriving DecidableEq

/-- `utils.IndexInfo` (the Python field `partial` is a Lean keyword,
rendered here as `part`). -/
structure IndexInfo where
  name : String
  unique : Bool
  origin : String
  part : Bool
  deriving DecidableEq

/-- `utils.TableSchema`. -/
structure TableSchema where
  table_name : String
  columns : List ColumnInfo
  foreign_keys : List ForeignKeyInfo
  indexes : List IndexInfo
  deriving DecidableEq

/-! ## `db_schema_inspector.get_table_schema` -/

/-- `db_schema_inspector.get_table_schema`: quote the table name, run the
three pragmas, map each result row positionally into its record type
(`bool(...)` on the `notnull`/`pk`/`unique`/`partial` integers becomes
`≠ 0`), and assemble the `TableSchema`. -/
def get_table_schema (db : Db) (table_name : String) : TableSchema :=
  let quoted_table := quote_identifier table_name
  let columns_data := pragma_table_info db quoted_table
  let columns := columns_data.map (fun col =>
    ColumnInfo.mk col.cid col.name col.type (col.notnull != 0) col.dflt_value (col.pk != 0))
  let foreign_keys_data := pragma_foreign_key_list db quoted_table
  let foreign_keys := foreign_keys_data.map (fun fk =>
    ForeignKeyInfo.mk fk.id fk.seq fk.table fk.from_col fk.to_col fk.on_update fk.on_delete fk.match_policy)
  let indexes_data := pragma_index_list db quoted_table
  let indexes := indexes_data.map (fun idx =>
    IndexInfo.mk idx.name (idx.uniq != 0) idx.origin (idx.part != 0))
  TableSchema.mk table_name columns foreign_keys indexes

/-! ## Python `dict` model

A `dict[str, α]` is an association list in insertion order.
`counts[k] = v` updates the value in place when the key is present and
appends the pair otherwise, exactly as a Python dict does. -/

/-- Python `d[k] = v` on a `dict` modelled as an insertion-ordered
association list. -/
def dictInsert {α : Type} (d : List (String × α)) (k : String) (v : α) : List (String × α) :=
  if d.any (fun p => p.1 == k) then
    d.map (fun p => if p.1 == k then (k, v) else p)
  else
    d ++ [(k, v)]

/-- Python `d[k]` / `d.get(k)`: the value stored at `k`, if any. -/
def dictLookup {α : Type} (d : List (String × α)) (k : String) : Option α :=
  (d.find? (fun p => p.1 == k)).map Prod.snd

/-! ## `table_counts.get_table_counts` -/

/-- The `for table_name in table_names:` loop of
`table_counts.get_table_counts`, carrying the `counts` dict.  Each
iteration issues its own `SELECT COUNT(*)` query; a raised database
error aborts the whole call (`Except.error`), so no partial dict is ever
returned. -/
def countsLoop (db : Db) (min_rows : Int) :
    List String → List (String × Nat) → Except String (List (String × Nat))
  | [], counts => Except.ok counts
  | table_name :: rest, counts =>
    match select_count_star db (quote_identifier table_name) with
    | Except.error e => Except.error e
    | Except.ok count =>
      if min_rows ≤ (count : Int) then
        countsLoop db min_rows rest (dictInsert counts table_name count)
      else
        countsLoop db min_rows rest counts

/-- `table_counts.get_table_counts`: start from the empty dict and run
the loop.  The Python `count >= min_rows` comparison is
`min_rows ≤ (count : Int)`; `min_rows` is an arbitrary Python `int`, so
it is modelled as `Int` while a row count is a `Nat`. -/
def get_table_counts (db : Db) (table_names : List String) (min_rows : Int) :
    Except String (List (String × Nat)) :=
  countsLoop db min_rows table_names []

/-! ## The two command entry points (success-path data flow)

`main` of each command, restricted to the data it computes: argument
parsing, path checks and JSON serialisation are environmental; the JSON
objects the commands emit are modelled as structures whose fields are
exactly the keys of the emitted dict literals. -/

/-- The JSON object `table_counts.main` builds:
`{"database": ..., "total_tables": ..., "filtered_tables": ...,
"min_rows_filter": ..., "table_counts": ...}` — exactly these five
fields. -/
structure TableCountsOutput where
  database : String
  total_tables : Nat
  filtered_tables : Nat
  min_rows_filter : Int
  table_counts : List (String × Nat)
  deriving DecidableEq

/-- The try-block body of `table_counts.main` (lines 91–104): enumerate
the tables, count them with the `--min-rows` filter, and assemble the
output object.  A database error inside `get_table_counts` propagates to
the `except sqlite3.Error` handler (`Except.error`). -/
def table_counts_main (db : Db) (db_name : String) (min_rows : Int) :
    Except String TableCountsOutput :=
  let table_names := get_table_names db
  match get_table_counts db table_names min_rows with
  | Except.error e => Except.error e
  | Except.ok counts =>
    Except.ok (TableCountsOutput.mk db_name table_names.length counts.length min_rows counts)

/-- The combined stdout JSON object `db_schema_inspector.main` emits:
`{"tables": ..., "schemas": ...}` where `schemas` maps each processed
table name to `asdict` of its `TableSchema`. -/
structure InspectorOutput where
  tables : List String
  schemas : List (String × TableSchema)
  deriving DecidableEq

/-- The table-selection and extraction logic of
`db_schema_inspector.main` (lines 145–158): a non-empty positional
argument list is used verbatim (`if args.table_name:`), otherwise the
catalog is enumerated; then the schema of each selected name is
extracted in order into the `schemas` dict. -/
def db_schema_inspector_main (db : Db) (args_table_name : List String) : InspectorOutput :=
  let table_names := if args_table_name.isEmpty then get_table_names db else args_table_name
  let schemas := table_names.foldl
    (fun acc table_name => dictInsert acc table_name (get_table_schema db table_name)) []
  InspectorOutput.mk table_names schemas

/-! ## Exit paths and the connection resource

Control-flow model of each command's `main`, tracking whether
`conn.close()` runs before the process terminates on each exit path. -/

/-- Outcome of the `try:` body, as far as the database is concerned:
it completes, or `sqlite3.connect` itself raises, or a query raises
after the connection was opened. -/
inductive TryOutcome (α : Type) where
  | success (out : α)
  | connectError (msg : String)
  | queryError (msg : String)
  deriving DecidableEq

/-- Observable trace of one command invocation: the exit code, whether a
connection was opened, whether `conn.close()` was called before the
process terminated, and the output object when one was produced. -/
structure RunTrace (α : Type) where
  exit_code : Nat
  conn_opened : Bool
  conn_closed : Bool
  output : Option α
  deriving DecidableEq

/-- Exit-path model of `table_counts.main` (lines 80–120): the two path
checks exit 1 before any connection exists; on a completed try body
`conn.close()` (line 116) runs and the command exits 0; when a
`sqlite3.Error` is raised after `sqlite3.connect` (line 91) succeeded,
the `except` handler (lines 118–120) prints and exits 1 — no
`conn.close()` appears on that path (there is no `finally`). -/
def table_counts_run (file_exists is_file : Bool)
    (outcome : TryOutcome TableCountsOutput) : RunTrace TableCountsOutput :=
  if !file_exists then RunTrace.mk 1 false false none
  else if !is_file then RunTrace.mk 1 false false none
  else
    match outcome with
    | TryOutcome.success out => RunTrace.mk 0 true true (some out)
    | TryOutcome.connectError _ => RunTrace.mk 1 false false none
    | TryOutcome.queryError _ => RunTrace.mk 1 true false none

/-- Exit-path model of `db_schema_inspector.main` (lines 126–184), with
the same structure: `conn.close()` (line 160) runs only when the try
body completes; the `except sqlite3.Error` handler (lines 182–184)
exits 1 without closing the connection opened on line 139. -/
def db_schema_inspector_run (file_exists is_file : Bool)
    (outcome : TryOutcome InspectorOutput) : RunTrace InspectorOutput :=
  if !file_exists then RunTrace.mk 1 false false none
  else if !is_file then RunTrace.mk 1 false false none
  else
    match outcome with
    | TryOutcome.success out => RunTrace.mk 0 true true (some out)
    | TryOutcome.connectError _ => RunTrace.mk 1 false false none
    | TryOutcome.queryError _ => RunTrace.mk 1 true false none

/-! ## Helper lemmas -/

theorem resolveTable_eq_none (db : Db) (name : String)
    (h : ∀ t ∈ db.tables, t.name ≠ name) :
    resolveTable db (quote_identifier name) = none := by
  rw [resolveTable, List.find?_eq_none]
  intro t ht
  simp only [Bool.not_eq_true, beq_eq_false_iff_ne, ne_eq]
  intro hq
  exact h t ht (quote_identifier_injective hq)

theorem get_table_schema_absent (db : Db) (name : String)
    (h : ∀ t ∈ db.tables, t.name ≠ name) :
    get_table_schema db name = TableSchema.mk name [] [] [] := by
  have hr := resolveTable_eq_none db name h
  simp [get_table_schema, pragma_table_info, pragma_foreign_key_list, pragma_index_list, hr]

theorem pragma_table_info_cid (db : Db) (q : String) :
    (pragma_table_info db q).map (fun r => r.cid) =
      List.range (pragma_table_info db q).length := by
  unfold pragma_table_info
  cases resolveTable db q with
  | none => rfl
  | some t =>
    simp only [List.map_map, List.length_map, List.enum_length]
    have hf : ((fun r : TableInfoRow => r.cid) ∘ fun p : Nat × ColumnDecl =>
        TableInfoRow.mk p.1 p.2.name p.2.type p.2.notnull p.2.dflt_value p.2.pk) = Prod.fst := rfl
    rw [hf, List.enum_map_fst]

/-- A concrete database used by the witnesses: two tables, one with
rows and one empty. -/
def exampleDb : Db :=
  Db.mk
    [ TableDecl.mk "users"
        [ColumnDecl.mk "id" "INTEGER" 0 none 1, ColumnDecl.mk "name" "TEXT" 1 none 0]
        [] [IdxRow.mk 0 "idx_users_name" 1 "c" 0] 3
    , TableDecl.mk "orders"
        [ColumnDecl.mk "id" "INTEGER" 0 none 1]
        [FkRow.mk 0 0 "users" "user_id" "id" "NO ACTION" "NO ACTION" "NONE"]
        [] 0 ]

/-! ## Claim theorems -/

/-- **C1 — code bug.**  The spec requires the connection to be closed on
every exit path, including the caught database-error path.  In both
commands the `except sqlite3.Error` handler exits with status 1 without
any `conn.close()` (there is no `finally` block), so on the exit path
where a database error is raised after `sqlite3.connect` succeeded the
opened connection is never closed: `conn_opened = true`,
`conn_closed = false`, `exit_code = 1` for both commands. -/
theorem connection_not_closed_on_error_path :
    (table_counts_run true true
      (TryOutcome.queryError "database disk image is malformed")).exit_code = 1 ∧
    (table_counts_run true true
      (TryOutcome.queryError "database disk image is malformed")).conn_opened = true ∧
    (table_counts_run true true
      (TryOutcome.queryError "database disk image is malformed")).conn_closed = false ∧
    (db_schema_inspector_run true true
      (TryOutcome.queryError "database disk image is malformed")).exit_code = 1 ∧
    (db_schema_inspector_run true true
      (TryOutcome.queryError "database disk image is malformed")).conn_opened = true ∧
    (db_schema_inspector_run true true
      (TryOutcome.queryError "database disk image is malformed")).conn_closed = false :=
  ⟨rfl, rfl, rfl, rfl, rfl, rfl⟩

/-- **C3.**  For every fixed catalog state, `get_table_names` returns
exactly the user-defined table names that do not start with the
engine-internal prefix `"sqlite_"`, sorted in ascending lexical order,
and calling it twice on the same state returns identical lists. -/
theorem get_table_names_spec (db : Db) :
    List.Sorted (· ≤ ·) (get_table_names db) ∧
    (∀ t, t ∈ get_table_names db ↔
      (t ∈ db.tables.map (fun tb => tb.name) ∧ str_startswith t "sqlite_" = false)) ∧
    get_table_names db = get_table_names db := by
  refine ⟨?_, ?_, rfl⟩
  · exact List.Pairwise.filter _ (List.sorted_insertionSort _ _)
  · intro t
    simp [get_table_names, List.mem_filter, List.mem_insertionSort]

/-- **C4.**  For every table name that resolves to no table in the
catalog, `get_table_schema` returns a `TableSchema` whose three child
sequences are all empty — a valid degenerate output, not an error. -/
theorem get_table_schema_nonexistent (db : Db) (name : String)
    (h : ∀ t ∈ db.tables, t.name ≠ name) :
    (get_table_schema db name).columns = [] ∧
    (get_table_schema db name).foreign_keys = [] ∧
    (get_table_schema db name).indexes = [] := by
  rw [get_table_schema_absent db name h]
  exact ⟨rfl, rfl, rfl⟩

/-- Witness for `get_table_schema_nonexistent` at a concrete database
and a concrete missing table name. -/
theorem get_table_schema_nonexistent_witness :
    (get_table_schema exampleDb "missing").columns = [] ∧
    (get_table_schema exampleDb "missing").foreign_keys = [] ∧
    (get_table_schema exampleDb "missing").indexes = [] :=
  get_table_schema_nonexistent exampleDb "missing" (by decide)

/-- **C5.**  `get_table_schema` returns a `TableSchema` whose
`table_name` is the input name, whose three child sequences are the
corresponding pragma result rows mapped positionally into their record
types in exactly the order the queries returned them (a plain `map`, no
re-sorting), and whose column `cid` values are `0, 1, 2, …` in
declaration order — hence unique. -/
theorem get_table_schema_structure (db : Db) (name : String) :
    (get_table_schema db name).table_name = name ∧
    (get_table_schema db name).columns =
      (pragma_table_info db (quote_identifier name)).map (fun col =>
        ColumnInfo.mk col.cid col.name col.type (col.notnull != 0) col.dflt_value (col.pk != 0)) ∧
    (get_table_schema db name).foreign_keys =
      (pragma_foreign_key_list db (quote_identifier name)).map (fun fk =>
        ForeignKeyInfo.mk fk.id fk.seq fk.table fk.from_col fk.to_col fk.on_update fk.on_delete fk.match_policy) ∧
    (get_table_schema db name).indexes =
      (pragma_index_list db (quote_identifier name)).map (fun idx =>
        IndexInfo.mk idx.name (idx.uniq != 0) idx.origin (idx.part != 0)) ∧
    (get_table_schema db name).columns.map (fun c => c.cid) =
      List.range (get_table_schema db name).columns.length ∧
    ((get_table_schema db name).columns.map (fun c => c.cid)).Nodup := by
  have hcid : (get_table_schema db name).columns.map (fun c => c.cid) =
      List.range (get_table_schema db name).columns.length := by
    have h := pragma_table_info_cid db (quote_identifier name)
    simp only [get_table_schema, List.map_map, List.length_map]
    simpa [Function.comp] using h
  refine ⟨rfl, rfl, rfl, rfl, hcid, ?_⟩
  rw [hcid]
  exact List.nodup_range _

/-! ## Dict lemmas -/

theorem dict_hasKey_iff {α : Type} (d : List (String × α)) (k : String) :
    d.any (fun p => p.1 == k) = true ↔ k ∈ d.map Prod.fst := by
  simp [List.any_eq_true, List.mem_map, beq_iff_eq]

theorem dictInsert_keys_of_mem {α : Type} (d : List (String × α)) (k : String) (v : α)
    (h : k ∈ d.map Prod.fst) :
    (dictInsert d k v).map Prod.fst = d.map Prod.fst := by
  rw [dictInsert, if_pos ((dict_hasKey_iff d k).mpr h), List.map_map]
  refine List.map_congr_left ?_
  intro p _
  by_cases hpk : p.1 = k
  · simp [Function.comp, hpk]
  · simp [Function.comp, hpk]

theorem dictInsert_keys_of_not_mem {α : Type} (d : List (String × α)) (k : String) (v : α)
    (h : k ∉ d.map Prod.fst) :
    (dictInsert d k v).map Prod.fst = d.map Prod.fst ++ [k] := by
  rw [dictInsert, if_neg (fun hc => h ((dict_hasKey_iff d k).mp hc))]
  simp

theorem dictInsert_key_mem {α : Type} (d : List (String × α)) (k : String) (v : α) :
    k ∈ (dictInsert d k v).map Prod.fst := by
  by_cases h : k ∈ d.map Prod.fst
  · rw [dictInsert_keys_of_mem d k v h]; exact h
  · rw [dictInsert_keys_of_not_mem d k v h]; simp

theorem dictInsert_keys_subset {α : Type} (d : List (String × α)) (k : String) (v : α)
    (k' : String) (h : k' ∈ d.map Prod.fst) : k' ∈ (dictInsert d k v).map Prod.fst := by
  by_cases hk : k ∈ d.map Prod.fst
  · rw [dictInsert_keys_of_mem d k v hk]; exact h
  · rw [dictInsert_keys_of_not_mem d k v hk]; exact List.mem_append_left _ h

theorem dictInsert_values {α : Type} (f : String → α) (d : List (String × α)) (k : String)
    (hd : ∀ p ∈ d, p.2 = f p.1) : ∀ p ∈ dictInsert d k (f k), p.2 = f p.1 := by
  intro p hp
  rw [dictInsert] at hp
  split at hp
  · obtain ⟨q, hq, hpq⟩ := List.mem_map.mp hp
    by_cases hqk : q.1 = k
    · rw [if_pos (beq_iff_eq.mpr hqk)] at hpq
      rw [← hpq]
    · rw [if_neg (fun hc => hqk (beq_iff_eq.mp hc))] at hpq
      rw [← hpq]
      exact hd q hq
  · rcases List.mem_append.mp hp with hin | hlast
    · exact hd p hin
    · rw [List.mem_singleton.mp hlast]

theorem dictLookup_of_values {α : Type} (f : String → α) (d : List (String × α))
    (hd : ∀ p ∈ d, p.2 = f p.1) (k : String) (hk : k ∈ d.map Prod.fst) :
    dictLookup d k = some (f k) := by
  have hsome : (d.find? (fun p => p.1 == k)).isSome := by
    refine List.find?_isSome.mpr ?_
    obtain ⟨p, hp, hpk⟩ := List.mem_map.mp hk
    exact ⟨p, hp, beq_iff_eq.mpr hpk⟩
  obtain ⟨p, hp⟩ := Option.isSome_iff_exists.mp hsome
  have hpk : p.1 = k := by
    have h2 := List.find?_some hp
    simpa using h2
  have hpd : p ∈ d := List.mem_of_find?_eq_some hp
  rw [dictLookup, hp]
  simp [hd p hpd, hpk]

theorem foldl_dictInsert_values {α : Type} (f : String → α) :
    ∀ (keys : List String) (acc : List (String × α)),
      (∀ p ∈ acc, p.2 = f p.1) →
      ∀ p ∈ keys.foldl (fun a n => dictInsert a n (f n)) acc, p.2 = f p.1
  | [], _, h => h
  | n :: rest, acc, h =>
    foldl_dictInsert_values f rest (dictInsert acc n (f n)) (dictInsert_values f acc n h)

theorem foldl_dictInsert_keys_mem {α : Type} (f : String → α) :
    ∀ (keys : List String) (acc : List (String × α)) (k : String),
      (k ∈ keys ∨ k ∈ acc.map Prod.fst) →
      k ∈ (keys.foldl (fun a n => dictInsert a n (f n)) acc).map Prod.fst := by
  intro keys
  induction keys with
  | nil =>
    intro acc k hk
    exact hk.resolve_left (fun h => (List.not_mem_nil k) h)
  | cons n rest ih =>
    intro acc k hk
    rcases hk with hmem | hacc
    · rcases List.mem_cons.mp hmem with rfl | hrest
      · exact ih _ k (Or.inr (dictInsert_key_mem acc k (f k)))
      · exact ih _ k (Or.inl hrest)
    · exact ih _ k (Or.inr (dictInsert_keys_subset acc n (f n) k hacc))

/-- **C9.**  When the schema inspector is given a non-empty positional
table-name argument list, that list is used verbatim: the emitted
`tables` list equals the argument list as given (no validation against
the catalog, no sorting, no filtering of engine-internal names), each
argument gets a schema entry, and a nonexistent argument produces an
all-empty schema rather than an error. -/
theorem inspector_args_verbatim (db : Db) (args : List String) (h : args ≠ []) :
    (db_schema_inspector_main db args).tables = args ∧
    (∀ name ∈ args,
      dictLookup (db_schema_inspector_main db args).schemas name =
        some (get_table_schema db name)) ∧
    (∀ name ∈ args, (∀ t ∈ db.tables, t.name ≠ name) →
      get_table_schema db name = TableSchema.mk name [] [] []) := by
  have hne : args.isEmpty = false := by
    cases args with
    | nil => exact absurd rfl h
    | cons a l => rfl
  refine ⟨?_, ?_, fun name _ habs => get_table_schema_absent db name habs⟩
  · simp [db_schema_inspector_main, hne]
  · intro name hname
    have hs : (db_schema_inspector_main db args).schemas =
        args.foldl (fun a n => dictInsert a n (get_table_schema db n)) [] := by
      simp [db_schema_inspector_main, hne]
    rw [hs]
    exact dictLookup_of_values (get_table_schema db) _
      (foldl_dictInsert_values (get_table_schema db) args [] (by simp)) name
      (foldl_dictInsert_keys_mem (get_table_schema db) args [] name (Or.inl hname))

/-- Witness for `inspector_args_verbatim`: a one-element argument list
naming a table absent from the concrete database. -/
theorem inspector_args_verbatim_witness :
    (db_schema_inspector_main exampleDb ["ghost"]).tables = ["ghost"] ∧
    (∀ name ∈ ["ghost"],
      dictLookup (db_schema_inspector_main exampleDb ["ghost"]).schemas name =
        some (get_table_schema exampleDb name)) ∧
    (∀ name ∈ ["ghost"], (∀ t ∈ exampleDb.tables, t.name ≠ name) →
      get_table_schema exampleDb name = TableSchema.mk name [] [] []) :=
  inspector_args_verbatim exampleDb ["ghost"] (by decide)

/-! ## Counting lemmas -/

theorem select_count_star_ok_of_mem (db : Db) (name : String)
    (h : ∃ t ∈ db.tables, t.name = name) :
    ∃ c, select_count_star db (quote_identifier name) = Except.ok c := by
  obtain ⟨t, ht, rfl⟩ := h
  rw [select_count_star]
  have hsome : (resolveTable db (quote_identifier t.name)).isSome := by
    rw [resolveTable]
    exact List.find?_isSome.mpr ⟨t, ht, beq_self_eq_true _⟩
  obtain ⟨t', ht'⟩ := Option.isSome_iff_exists.mp hsome
  rw [ht']
  exact ⟨t'.row_count, rfl⟩

theorem select_count_star_error_of_absent (db : Db) (name : String)
    (h : ∀ t ∈ db.tables, t.name ≠ name) :
    select_count_star db (quote_identifier name) =
      Except.error ("no such table: " ++ quote_identifier name) := by
  rw [select_count_star, resolveTable_eq_none db name h]

theorem dictInsert_forall {α : Type} (P : String × α → Prop) (d : List (String × α))
    (k : String) (v : α) (hd : ∀ p ∈ d, P p) (hv : P (k, v)) :
    ∀ p ∈ dictInsert d k v, P p := by
  intro p hp
  rw [dictInsert] at hp
  split at hp
  · obtain ⟨q, hq, hpq⟩ := List.mem_map.mp hp
    by_cases hqk : q.1 = k
    · rw [if_pos (beq_iff_eq.mpr hqk), ← hpq] at *
      exact hv
    · rw [if_neg (fun hc => hqk (beq_iff_eq.mp hc))] at hpq
      rw [← hpq]
      exact hd q hq
  · rcases List.mem_append.mp hp with hin | hlast
    · exact hd p hin
    · rw [List.mem_singleton.mp hlast]
      exact hv

theorem dictInsert_mem_of_mem {α : Type} (d : List (String × α)) (n k : String) (w v : α)
    (hkv : (k, v) ∈ d) (hcons : n = k → w = v) : (k, v) ∈ dictInsert d n w := by
  rw [dictInsert]
  split
  · refine List.mem_map.mpr ⟨(k, v), hkv, ?_⟩
    by_cases h : k = n
    · rw [if_pos (by simpa using h)]
      rw [(hcons h.symm : w = v), h]
    · rw [if_neg (by simpa using h)]
  · exact List.mem_append_left _ hkv

theorem dictInsert_self_mem {α : Type} (d : List (String × α)) (k : String) (v : α) :
    (k, v) ∈ dictInsert d k v := by
  rw [dictInsert]
  split
  case isTrue h =>
    obtain ⟨q, hq, hqk⟩ := List.any_eq_true.mp h
    refine List.mem_map.mpr ⟨q, hq, ?_⟩
    rw [if_pos hqk]
  case isFalse h =>
    exact List.mem_append_right _ (List.mem_singleton.mpr rfl)

theorem countsLoop_good (db : Db) (min_rows : Int) :
    ∀ (names : List String) (acc res : List (String × Nat)),
      (∀ p ∈ acc, select_count_star db (quote_identifier p.1) = Except.ok p.2 ∧
        min_rows ≤ (p.2 : Int)) →
      countsLoop db min_rows names acc = Except.ok res →
      ∀ p ∈ res, select_count_star db (quote_identifier p.1) = Except.ok p.2 ∧
        min_rows ≤ (p.2 : Int) := by
  intro names
  induction names with
  | nil =>
    intro acc res hacc h
    rw [countsLoop] at h
    exact (Except.ok.inj h) ▸ hacc
  | cons n rest ih =>
    intro acc res hacc h
    rw [countsLoop] at h
    cases hsel : select_count_star db (quote_identifier n) with
    | error e => rw [hsel] at h; exact absurd h (by simp)
    | ok c =>
      rw [hsel] at h
      dsimp only at h
      by_cases hm : min_rows ≤ (c : Int)
      · rw [if_pos hm] at h
        exact ih (dictInsert acc n c) res
          (dictInsert_forall _ acc n c hacc ⟨hsel, hm⟩) h
      · rw [if_neg hm] at h
        exact ih acc res hacc h

theorem countsLoop_mem_preserved (db : Db) (min_rows : Int) :
    ∀ (names : List String) (acc res : List (String × Nat)),
      (∀ p ∈ acc, select_count_star db (quote_identifier p.1) = Except.ok p.2) →
      countsLoop db min_rows names acc = Except.ok res →
      ∀ k v, (k, v) ∈ acc → (k, v) ∈ res := by
  intro names
  induction names with
  | nil =>
    intro acc res _ h k v hkv
    rw [countsLoop] at h
    exact (Except.ok.inj h) ▸ hkv
  | cons n rest ih =>
    intro acc res hacc h k v hkv
    rw [countsLoop] at h
    cases hsel : select_count_star db (quote_identifier n) with
    | error e => rw [hsel] at h; exact absurd h (by simp)
    | ok c =>
      rw [hsel] at h
      dsimp only at h
      by_cases hm : min_rows ≤ (c : Int)
      · rw [if_pos hm] at h
        refine ih (dictInsert acc n c) res
          (dictInsert_forall _ acc n c hacc hsel) h k v ?_
        refine dictInsert_mem_of_mem acc n k c v hkv (fun hnk => ?_)
        have hkv' := hacc (k, v) hkv
        rw [← hnk] at hkv'
        exact Except.ok.inj (hkv'.symm.trans hsel).symm
      · rw [if_neg hm] at h
        exact ih acc res hacc h k v hkv

theorem countsLoop_complete (db : Db) (min_rows : Int) :
    ∀ (names : List String) (acc res : List (String × Nat)),
      (∀ p ∈ acc, select_count_star db (quote_identifier p.1) = Except.ok p.2) →
      countsLoop db min_rows names acc = Except.ok res →
      ∀ name ∈ names, ∀ c, select_count_star db (quote_identifier name) = Except.ok c →
        min_rows ≤ (c : Int) → (name, c) ∈ res := by
  intro names
  induction names with
  | nil =>
    intro acc res _ _ name hname
    exact absurd hname (List.not_mem_nil name)
  | cons n rest ih =>
    intro acc res hacc h name hname c hc hmc
    rw [countsLoop] at h
    cases hsel : select_count_star db (quote_identifier n) with
    | error e => rw [hsel] at h; exact absurd h (by simp)
    | ok c' =>
      rw [hsel] at h
      dsimp only at h
      rcases List.mem_cons.mp hname with rfl | hrest
      · have hcc : c' = c := Except.ok.inj (hsel.symm.trans hc)
        subst hcc
        rw [if_pos hmc] at h
        exact countsLoop_mem_preserved db min_rows rest (dictInsert acc name c') res
          (dictInsert_forall _ acc name c' hacc hsel) h name c'
          (dictInsert_self_mem acc name c')
      · by_cases hm : min_rows ≤ (c' : Int)
        · rw [if_pos hm] at h
          exact ih (dictInsert acc n c') res
            (dictInsert_forall _ acc n c' hacc hsel) h name hrest c hc hmc
        · rw [if_neg hm] at h
          exact ih acc res hacc h name hrest c hc hmc

theorem countsLoop_error_first_bad (db : Db) (min_rows : Int) (bad : String)
    (post : List String)
    (hbad : select_count_star db (quote_identifier bad) =
      Except.error ("no such table: " ++ quote_identifier bad)) :
    ∀ (pre : List String),
      (∀ n ∈ pre, ∃ c, select_count_star db (quote_identifier n) = Except.ok c) →
      ∀ (acc : List (String × Nat)),
        countsLoop db min_rows (pre ++ bad :: post) acc =
          Except.error ("no such table: " ++ quote_identifier bad)
  | [], _, acc => by simp [countsLoop, hbad]
  | n :: pre', hpre, acc => by
    obtain ⟨c, hc⟩ := hpre n (List.mem_cons_self n pre')
    have ih := countsLoop_error_first_bad db min_rows bad post hbad pre'
      (fun n' hn' => hpre n' (List.mem_cons_of_mem n hn'))
    rw [List.cons_append, countsLoop, hc]
    dsimp only
    by_cases hm : min_rows ≤ (c : Int)
    · rw [if_pos hm]; exact ih _
    · rw [if_neg hm]; exact ih _

theorem countsLoop_keys_sublist (db : Db) (min_rows : Int) :
    ∀ (names : List String) (acc res : List (String × Nat)),
      countsLoop db min_rows names acc = Except.ok res →
      ∃ l, res.map Prod.fst = acc.map Prod.fst ++ l ∧ l.Sublist names ∧
        ∀ k ∈ l, k ∉ acc.map Prod.fst := by
  intro names
  induction names with
  | nil =>
    intro acc res h
    rw [countsLoop] at h
    refine ⟨[], ?_, List.nil_sublist [], by simp⟩
    rw [← Except.ok.inj h]
    simp
  | cons n rest ih =>
    intro acc res h
    rw [countsLoop] at h
    cases hsel : select_count_star db (quote_identifier n) with
    | error e => rw [hsel] at h; exact absurd h (by simp)
    | ok c =>
      rw [hsel] at h
      dsimp only at h
      by_cases hm : min_rows ≤ (c : Int)
      · rw [if_pos hm] at h
        obtain ⟨l, hkeys, hsub, hnotin⟩ := ih (dictInsert acc n c) res h
        by_cases hmem : n ∈ acc.map Prod.fst
        · rw [dictInsert_keys_of_mem acc n c hmem] at hkeys hnotin
          exact ⟨l, hkeys, hsub.cons n, hnotin⟩
        · rw [dictInsert_keys_of_not_mem acc n c hmem] at hkeys hnotin
          refine ⟨n :: l, by simpa using hkeys, hsub.cons₂ n, ?_⟩
          intro k hk
          rcases List.mem_cons.mp hk with rfl | hkl
          · exact hmem
          · intro hka
            exact hnotin k hkl (List.mem_append_left _ hka)
      · rw [if_neg hm] at h
        obtain ⟨l, hkeys, hsub, hnotin⟩ := ih acc res h
        exact ⟨l, hkeys, hsub.cons n, hnotin⟩

theorem countsLoop_all_pass (db : Db) (min_rows : Int) :
    ∀ (names : List String) (acc : List (String × Nat)),
      (∀ n ∈ names, ∃ c, select_count_star db (quote_identifier n) = Except.ok c ∧
        min_rows ≤ (c : Int)) →
      (∀ n ∈ names, n ∉ acc.map Prod.fst) → names.Nodup →
      ∃ res, countsLoop db min_rows names acc = Except.ok res ∧
        res.map Prod.fst = acc.map Prod.fst ++ names := by
  intro names
  induction names with
  | nil =>
    intro acc _ _ _
    exact ⟨acc, by rw [countsLoop], by simp⟩
  | cons n rest ih =>
    intro acc hpass hfresh hnd
    obtain ⟨c, hc, hm⟩ := hpass n (List.mem_cons_self n rest)
    have hn_acc : n ∉ acc.map Prod.fst := hfresh n (List.mem_cons_self n rest)
    have hrest_fresh : ∀ n' ∈ rest, n' ∉ (dictInsert acc n c).map Prod.fst := by
      intro n' hn'
      rw [dictInsert_keys_of_not_mem acc n c hn_acc]
      intro hmem
      rcases List.mem_append.mp hmem with hin | hlast
      · exact hfresh n' (List.mem_cons_of_mem n hn') hin
      · exact (List.nodup_cons.mp hnd).1 (List.mem_singleton.mp hlast ▸ hn')
    obtain ⟨res, hres, hkeys⟩ := ih (dictInsert acc n c)
      (fun n' hn' => hpass n' (List.mem_cons_of_mem n hn'))
      hrest_fresh (List.nodup_cons.mp hnd).2
    refine ⟨res, ?_, ?_⟩
    · rw [countsLoop, hc]
      dsimp only
      rw [if_pos hm]
      exact hres
    · rw [hkeys, dictInsert_keys_of_not_mem acc n c hn_acc]
      simp

/-- **C6.**  Whenever `get_table_counts` returns a mapping, that mapping
never includes a table whose true row count (the value of its own
`SELECT COUNT(*)` query) is below the threshold, and includes every
input table whose true count is at least the threshold, mapped to its
true count. -/
theorem get_table_counts_threshold (db : Db) (table_names : List String) (min_rows : Int)
    (res : List (String × Nat))
    (h : get_table_counts db table_names min_rows = Except.ok res) :
    (∀ p ∈ res, select_count_star db (quote_identifier p.1) = Except.ok p.2 ∧
      min_rows ≤ (p.2 : Int)) ∧
    (∀ name ∈ table_names, ∀ c,
      select_count_star db (quote_identifier name) = Except.ok c →
      min_rows ≤ (c : Int) → (name, c) ∈ res) :=
  ⟨countsLoop_good db min_rows table_names [] res (by simp) h,
   countsLoop_complete db min_rows table_names [] res (by simp) h⟩

/-- Witness for `get_table_counts_threshold`: with threshold 1 on the
concrete database, only the table with 3 rows is kept. -/
theorem get_table_counts_threshold_witness :
    (∀ p ∈ [("users", 3)], select_count_star exampleDb (quote_identifier p.1) =
      Except.ok p.2 ∧ (1 : Int) ≤ (p.2 : Int)) ∧
    (∀ name ∈ ["orders", "users"], ∀ c,
      select_count_star exampleDb (quote_identifier name) = Except.ok c →
      (1 : Int) ≤ (c : Int) → (name, c) ∈ [("users", 3)]) :=
  get_table_counts_threshold exampleDb ["orders", "users"] 1 [("users", 3)] (by rfl)

/-- **C8.**  Each table's count is its own independent query, and the
first failing query aborts the whole call: for any prefix of resolvable
tables followed by a nonexistent one, `get_table_counts` returns the
error of that first failing query, whatever comes after it — no partial
mapping is returned. -/
theorem get_table_counts_aborts (db : Db) (pre post : List String) (bad : String)
    (min_rows : Int)
    (hpre : ∀ n ∈ pre, ∃ c, select_count_star db (quote_identifier n) = Except.ok c)
    (hbad : ∀ t ∈ db.tables, t.name ≠ bad) :
    get_table_counts db (pre ++ bad :: post) min_rows =
      Except.error ("no such table: " ++ quote_identifier bad) :=
  countsLoop_error_first_bad db min_rows bad post
    (select_count_star_error_of_absent db bad hbad) pre hpre []

/-- Witness for `get_table_counts_aborts`: one resolvable table, then a
missing one, then another resolvable one that is never counted. -/
theorem get_table_counts_aborts_witness :
    get_table_counts exampleDb (["users"] ++ "ghost" :: ["orders"]) 0 =
      Except.error ("no such table: " ++ quote_identifier "ghost") :=
  get_table_counts_aborts exampleDb ["users"] ["orders"] "ghost" 0
    (by
      intro n hn
      rw [List.mem_singleton.mp hn]
      exact ⟨3, rfl⟩)
    (by decide)

/-- **C10.**  Whenever `get_table_counts` returns a mapping, its key
list is a sublist of the input list — the keys appear in exactly the
relative order of the input — every key is an element of the input, and
the result (hence the key order) is deterministic in the inputs. -/
theorem get_table_counts_key_order (db : Db) (table_names : List String) (min_rows : Int)
    (res : List (String × Nat))
    (h : get_table_counts db table_names min_rows = Except.ok res) :
    (res.map Prod.fst).Sublist table_names ∧
    (∀ k ∈ res.map Prod.fst, k ∈ table_names) ∧
    get_table_counts db table_names min_rows = get_table_counts db table_names min_rows := by
  obtain ⟨l, hkeys, hsub, _⟩ := countsLoop_keys_sublist db min_rows table_names [] res h
  simp only [List.map_nil, List.nil_append] at hkeys
  rw [hkeys]
  exact ⟨hsub, fun k hk => hsub.mem hk, rfl⟩

/-- Witness for `get_table_counts_key_order` at a concrete database and
input list. -/
theorem get_table_counts_key_order_witness :
    (([("orders", 0), ("users", 3)] : List (String × Nat)).map Prod.fst).Sublist
      ["orders", "users"] ∧
    (∀ k ∈ ([("orders", 0), ("users", 3)] : List (String × Nat)).map Prod.fst,
      k ∈ ["orders", "users"]) ∧
    get_table_counts exampleDb ["orders", "users"] 0 =
      get_table_counts exampleDb ["orders", "users"] 0 :=
  get_table_counts_key_order exampleDb ["orders", "users"] 0
    [("orders", 0), ("users", 3)] (by rfl)

/-- **C7.**  With `--min-rows 0` the row-counts command succeeds on any
well-formed catalog (distinct table names), its `table_counts` mapping
contains exactly the tables the Table Enumerator returns (in particular
every one of them), `filtered_tables` equals `total_tables`, and the
output object carries exactly the five fields
`database`, `total_tables`, `filtered_tables`, `min_rows_filter`,
`table_counts` (the fields of `TableCountsOutput`), with the stated
values. -/
theorem table_counts_min_rows_zero (db : Db) (db_name : String)
    (wf : (db.tables.map (fun t => t.name)).Nodup) :
    ∃ out, table_counts_main db db_name 0 = Except.ok out ∧
      out.table_counts.map Prod.fst = get_table_names db ∧
      out.filtered_tables = out.total_tables ∧
      out.database = db_name ∧
      out.min_rows_filter = 0 ∧
      out.total_tables = (get_table_names db).length := by
  have hnames_nodup : (get_table_names db).Nodup := by
    have h1 : (List.insertionSort (· ≤ ·) (db.tables.map (fun t => t.name))).Nodup :=
      (List.perm_insertionSort _ _).nodup_iff.mpr wf
    exact List.Nodup.filter _ h1
  have hpass : ∀ n ∈ get_table_names db,
      ∃ c, select_count_star db (quote_identifier n) = Except.ok c ∧ (0 : Int) ≤ (c : Int) := by
    intro n hn
    have hmem : n ∈ db.tables.map (fun t => t.name) := by
      have := List.mem_filter.mp hn
      exact (List.mem_insertionSort _).mp this.1
    obtain ⟨t, ht, htn⟩ := List.mem_map.mp hmem
    obtain ⟨c, hc⟩ := select_count_star_ok_of_mem db n ⟨t, ht, htn⟩
    exact ⟨c, hc, Int.natCast_nonneg c⟩
  obtain ⟨res, hres, hkeys⟩ := countsLoop_all_pass db 0 (get_table_names db) []
    hpass (by simp) hnames_nodup
  simp only [List.map_nil, List.nil_append] at hkeys
  refine ⟨TableCountsOutput.mk db_name (get_table_names db).length res.length 0 res,
    ?_, hkeys, ?_, rfl, rfl, rfl⟩
  · have hgtc : get_table_counts db (get_table_names db) 0 = Except.ok res := hres
    simp [table_counts_main, hgtc]
  · have : (res.map Prod.fst).length = (get_table_names db).length := by rw [hkeys]
    simpa using this

/-- Witness for `table_counts_min_rows_zero` at the concrete two-table
database. -/
theorem table_counts_min_rows_zero_witness :
    ∃ out, table_counts_main exampleDb "powerlog.PLSQL" 0 = Except.ok out ∧
      out.table_counts.map Prod.fst = get_table_names exampleDb ∧
      out.filtered_tables = out.total_tables ∧
      out.database = "powerlog.PLSQL" ∧
      out.min_rows_filter = 0 ∧
      out.total_tables = (get_table_names exampleDb).length :=
  table_counts_min_rows_zero exampleDb "powerlog.PLSQL" (by decide)

end Pawalogs
